import Mathlib

/-!
Verification development for the shadcn-table client-side task
synchronization engine.

The TypeScript sources are embedded shallowly:

* `src/workers/task-processor.worker.ts` (src/unnamed/part_001):
  `generateSignature`, chunking, and the worker message handling.
* `src/stores/task-store.tsx`: the `TasksProvider` variants; the
  worker-signature variant (lines 208-305, repeated at 454-551) of
  `fetchAllTasksFromServer` is modelled as a state+effect function, and
  `normalizeTasksForComparison` (lines 686-701) of the deep-equal variant.
* `src/app/_lib/actions.ts` (src/unnamed/part_003): `updateTask`.
* `src/app/_lib/queries.ts`: both implementations of `getTaskStatusCounts`.

JavaScript strings are modelled as `List Char`; JSON.stringify's string
quoting is reproduced character by character.  A JavaScript `Date` is
represented by the content of its ISO-8601 rendering (`toISOString`),
which determines the instant uniquely, so `toISOString` becomes the
identity on that representation.  Platform date parsing (`new Date(s)`)
is an explicit function parameter where it matters.
-/

/-- Character list of a string literal (JS strings are lists of code points here). -/
def strL (s : String) : List Char := s.data

/-- Task status enumeration from `db/indexeddb.ts`. -/
inductive TaskStatus
  | todo
  | inProgress
  | done
  | canceled
deriving DecidableEq, Repr

/-- Task priority enumeration from `db/indexeddb.ts`. -/
inductive TaskPriority
  | low
  | medium
  | high
deriving DecidableEq, Repr

/-- Task label enumeration from `db/indexeddb.ts`. -/
inductive TaskLabel
  | bug
  | feature
  | documentation
  | enhancement
deriving DecidableEq, Repr

/-- The string value a status carries at runtime. -/
def statusText : TaskStatus → List Char
  | .todo => strL "todo"
  | .inProgress => strL "in-progress"
  | .done => strL "done"
  | .canceled => strL "canceled"

/-- The string value a priority carries at runtime. -/
def priorityText : TaskPriority → List Char
  | .low => strL "low"
  | .medium => strL "medium"
  | .high => strL "high"

/-- Inverse of `statusText`, used by the record parser. -/
def statusOfText (s : List Char) : Option TaskStatus :=
  if s = strL "todo" then some .todo
  else if s = strL "in-progress" then some .inProgress
  else if s = strL "done" then some .done
  else if s = strL "canceled" then some .canceled
  else none

/-- Inverse of `priorityText`, used by the record parser. -/
def priorityOfText (s : List Char) : Option TaskPriority :=
  if s = strL "low" then some .low
  else if s = strL "medium" then some .medium
  else if s = strL "high" then some .high
  else none

/-- The runtime value sitting in a task's `updatedAt`/`createdAt` slot when it
reaches the worker: either a `Date` (represented by its ISO content) or an
already-serialized string, matching the `instanceof Date` branch in
`generateSignature` (worker, lines 53-54). -/
inductive JsTimeVal
  | jsDate (iso : List Char)
  | jsStr (s : List Char)
deriving DecidableEq, Repr

/-- `t.updatedAt instanceof Date ? t.updatedAt.toISOString() : t.updatedAt`
(worker, lines 53-54). -/
def timeContent : JsTimeVal → List Char
  | .jsDate iso => iso
  | .jsStr s => s

/-- The `Task` record as the worker receives it (interface in
`db/indexeddb.ts`; timestamps may arrive as `Date`s or as strings). -/
structure WorkerTask where
  id : List Char
  code : List Char
  title : List Char
  estimatedHours : Int
  status : TaskStatus
  label : TaskLabel
  priority : TaskPriority
  archived : Bool
  createdAt : JsTimeVal
  updatedAt : JsTimeVal
deriving DecidableEq, Repr

/-- The projected record built inside `generateSignature` (worker, lines
49-55): only `id`, `status`, `priority` and the serialized `updatedAt`. -/
structure MinimalTask where
  id : List Char
  status : TaskStatus
  priority : TaskPriority
  updatedAt : List Char
deriving DecidableEq, Repr

/-- The `minimalChunk` projection (worker, lines 49-55). -/
def minimalOf (t : WorkerTask) : MinimalTask :=
  { id := t.id
    status := t.status
    priority := t.priority
    updatedAt := timeContent t.updatedAt }

/-- Lowercase hex digit, as produced by JSON.stringify's \, u escapes. -/
def hexDigitChar (n : Nat) : Char :=
  (strL "0123456789abcdef").getD n '0'

/-- JSON.stringify's escaping of a single character (ECMA-262
QuoteJSONString): quote, backslash and the named control escapes get a
two-character escape, the remaining control characters get `\u00xy`, and
everything else is emitted verbatim. -/
def escChar (c : Char) : List Char :=
  if c = '\x22' then ['\x5c', '\x22']
  else if c = '\x5c' then ['\x5c', '\x5c']
  else if c = '\x08' then ['\x5c', 'b']
  else if c = '\x09' then ['\x5c', 't']
  else if c = '\x0a' then ['\x5c', 'n']
  else if c = '\x0c' then ['\x5c', 'f']
  else if c = '\x0d' then ['\x5c', 'r']
  else if c.toNat < 32 then
    ['\x5c', 'u', '0', '0', hexDigitChar (c.toNat / 16), hexDigitChar (c.toNat % 16)]
  else [c]

/-- JSON.stringify's escaping of a whole string body. -/
def escapeChars : List Char → List Char
  | [] => []
  | c :: cs => escChar c ++ escapeChars cs

/-- JSON.stringify of a string value: quoted, escaped. -/
def jsonQuote (s : List Char) : List Char :=
  '\x22' :: (escapeChars s ++ ['\x22'])

/-- JSON.stringify of one `minimalChunk` element: keys in insertion order
`id`, `status`, `priority`, `updatedAt` (worker, lines 49-56). -/
def encodeMinimalTask (m : MinimalTask) : List Char :=
  strL "\x7b\x22id\x22:" ++ jsonQuote m.id
    ++ strL ",\x22status\x22:" ++ jsonQuote (statusText m.status)
    ++ strL ",\x22priority\x22:" ++ jsonQuote (priorityText m.priority)
    ++ strL ",\x22updatedAt\x22:" ++ jsonQuote m.updatedAt
    ++ strL "\x7d"

/-- Tail of JSON.stringify of an array: elements comma-separated, closed
with `]`. -/
def encodeBody : List MinimalTask → List Char
  | [] => [']']
  | m :: ms =>
    encodeMinimalTask m ++
      (match ms with
        | [] => [']']
        | _ :: _ => ',' :: encodeBody ms)

/-- JSON.stringify of a `minimalChunk` array (worker, line 56). -/
def encodeMinimalList (ms : List MinimalTask) : List Char :=
  '[' :: encodeBody ms

/-- The slicing loop `for (let i = 0; i < tasks.length; i += CHUNK_SIZE)`
(worker, lines 42-45), fuelled so that it reduces in the kernel. -/
def chunkLoop (n : Nat) : Nat → List α → List (List α)
  | 0, _ => []
  | _, [] => []
  | fuel + 1, ts => ts.take n :: chunkLoop n fuel (ts.drop n)

/-- Split a list into chunks of `n` (worker, lines 42-45). -/
def chunksOf (n : Nat) (ts : List α) : List (List α) :=
  chunkLoop n ts.length ts

/-- `CHUNK_SIZE` (worker, line 17). -/
def CHUNK_SIZE : Nat := 1000

/-- `generateSignature` (worker, lines 41-59): slice into chunks, project
each chunk to its minimal form, JSON.stringify each projected chunk and
concatenate the chunk strings with `join("")`. -/
def generateSignature (tasks : List WorkerTask) : List Char :=
  ((chunksOf CHUNK_SIZE tasks).map
    (fun chunk => encodeMinimalList (chunk.map minimalOf))).flatten

/-- `generateSignature` after the projection has been pushed inside: the
same computation on the projected records. -/
def signatureOfMinimal (ms : List MinimalTask) : List Char :=
  ((chunksOf CHUNK_SIZE ms).map encodeMinimalList).flatten

/-- Hex digit value, inverse of `hexDigitChar`. -/
def hexVal (c : Char) : Option Nat :=
  if '0' ≤ c ∧ c ≤ '9' then some (c.toNat - '0'.toNat)
  else if 'a' ≤ c ∧ c ≤ 'f' then some (c.toNat - 'a'.toNat + 10)
  else none

/-- Parser for the body of a JSON string (everything after the opening
quote), undoing `escapeChars` up to the closing quote and returning the
decoded content together with the unconsumed input.  Used only to prove
that the serialization is prefix-determined. -/
def parseStrBody : List Char → Option (List Char × List Char)
  | [] => none
  | c :: cs =>
    if c = '\x22' then some ([], cs)
    else if c = '\x5c' then
      match cs with
      | [] => none
      | e :: cs2 =>
        if e = '\x22' then (parseStrBody cs2).map (fun p => ('\x22' :: p.1, p.2))
        else if e = '\x5c' then (parseStrBody cs2).map (fun p => ('\x5c' :: p.1, p.2))
        else if e = 'b' then (parseStrBody cs2).map (fun p => ('\x08' :: p.1, p.2))
        else if e = 't' then (parseStrBody cs2).map (fun p => ('\x09' :: p.1, p.2))
        else if e = 'n' then (parseStrBody cs2).map (fun p => ('\x0a' :: p.1, p.2))
        else if e = 'f' then (parseStrBody cs2).map (fun p => ('\x0c' :: p.1, p.2))
        else if e = 'r' then (parseStrBody cs2).map (fun p => ('\x0d' :: p.1, p.2))
        else if e = 'u' then
          match cs2 with
          | d1 :: d2 :: d3 :: d4 :: cs3 =>
            match hexVal d1, hexVal d2, hexVal d3, hexVal d4 with
            | some a, some b, some c3, some d =>
              (parseStrBody cs3).map
                (fun p => (Char.ofNat (((a * 16 + b) * 16 + c3) * 16 + d) :: p.1, p.2))
            | _, _, _, _ => none
          | _ => none
        else none
    else (parseStrBody cs).map (fun p => (c :: p.1, p.2))

/-- Parser for a full JSON string value (opening quote included). -/
def parseJsonStr : List Char → Option (List Char × List Char)
  | [] => none
  | c :: cs => if c = '\x22' then parseStrBody cs else none

/-- Strip an expected literal prefix. -/
def parseLit : List Char → List Char → Option (List Char)
  | [], input => some input
  | _ :: _, [] => none
  | l :: ls, c :: cs => if l = c then parseLit ls cs else none

/-- Parser for one serialized `minimalChunk` record, inverse of
`encodeMinimalTask`. -/
def parseMinimalTask (input : List Char) : Option (MinimalTask × List Char) :=
  match parseLit (strL "\x7b\x22id\x22:") input with
  | none => none
  | some i1 =>
    match parseJsonStr i1 with
    | none => none
    | some (idv, i2) =>
      match parseLit (strL ",\x22status\x22:") i2 with
      | none => none
      | some i3 =>
        match parseJsonStr i3 with
        | none => none
        | some (stv, i4) =>
          match statusOfText stv with
          | none => none
          | some st =>
            match parseLit (strL ",\x22priority\x22:") i4 with
            | none => none
            | some i5 =>
              match parseJsonStr i5 with
              | none => none
              | some (prv, i6) =>
                match priorityOfText prv with
                | none => none
                | some pr =>
                  match parseLit (strL ",\x22updatedAt\x22:") i6 with
                  | none => none
                  | some i7 =>
                    match parseJsonStr i7 with
                    | none => none
                    | some (upv, i8) =>
                      match parseLit (strL "\x7d") i8 with
                      | none => none
                      | some i9 => some (⟨idv, st, pr, upv⟩, i9)

/-- React state owned by `TasksProvider` (task-store.tsx, lines 158-163):
the working task set, the loading flag, the last error, and the cached
signature of the current working set. -/
structure ProviderState where
  allTasks : List WorkerTask
  isLoadingAllTasks : Bool
  errorLoadingAllTasks : Option (List Char)
  currentTasksSignature : List Char
deriving DecidableEq, Repr

/-- Observable actions one `fetchAllTasksFromServer` cycle performs, in
program order: the remote fetch, worker posts, state setters and the two
IndexedDB writes. -/
inductive SyncEffect
  | fetchCall
  | workerPost (tasks : List WorkerTask)
  | setAllTasksEff (tasks : List WorkerTask)
  | dbClearEff
  | dbBulkPutEff (tasks : List WorkerTask)
  | setLoadingEff (b : Bool)
  | setErrorEff (e : Option (List Char))
deriving DecidableEq, Repr

/-- Outcome of `await getAllTasksFromKV()` (task-store.tsx, line 214):
either the resolved `{ data, error }` record or a rejection caught by the
outer `catch` (line 293). -/
inductive FetchResult
  | resolved (data : Option (List WorkerTask)) (error : Option (List Char))
  | threw (msg : List Char)
deriving DecidableEq, Repr

/-- The worker during one cycle: `workerRef.current` may be null
(task-store.tsx, line 230 guard), otherwise the temporary-listener promise
(lines 233-250) either resolves with a signature string or rejects. -/
inductive WorkerCycle
  | unavailable
  | available (reply : Except (List Char) (List Char))
deriving Repr

/-- JavaScript truthiness of `result.error : string | null`: only a
non-empty string is truthy. -/
def errTruthy : Option (List Char) → Bool
  | some s => !s.isEmpty
  | none => false

/-- `JSON.stringify([])`, the signature the provider assumes for an empty
collection (task-store.tsx, lines 284, 530). -/
def emptyArraySignature : List Char := strL "[]"

/-- `fetchAllTasksFromServer` of the worker-signature provider
(task-store.tsx, lines 208-305; the debounced variant at 454-551 has the
identical body).  `st` is the captured React state, `cache` the result of
`db.tasks.toArray()` used by the offline fallbacks, `res` the remote fetch
outcome and `w` the worker's behaviour for the fetched-signature request.
Returns the state after the cycle and the list of effects in program
order.  The function is total: every path of the source is inside
`try/catch/finally`, so the cycle always resolves. -/
def fetchAllTasksFromServer (st : ProviderState) (cache : List WorkerTask)
    (res : FetchResult) (w : WorkerCycle) : ProviderState × List SyncEffect :=
  let st0 : ProviderState :=
    { st with isLoadingAllTasks := true, errorLoadingAllTasks := none }
  let head : List SyncEffect :=
    [.setLoadingEff true, .setErrorEff none, .fetchCall]
  let body : ProviderState × List SyncEffect :=
    match res with
    | .threw msg =>
      -- lines 293-301: catch branch, offline fallback
      let stE := { st0 with errorLoadingAllTasks := some msg }
      if cache.isEmpty then
        ({ stE with allTasks := [] }, [.setErrorEff (some msg), .setAllTasksEff []])
      else
        ({ stE with allTasks := cache }, [.setErrorEff (some msg), .setAllTasksEff cache])
    | .resolved data err =>
      if errTruthy err then
        -- lines 215-223: server-reported error, offline fallback
        let stE := { st0 with errorLoadingAllTasks := err }
        if cache.isEmpty then
          ({ stE with allTasks := [] }, [.setErrorEff err, .setAllTasksEff []])
        else
          ({ stE with allTasks := cache }, [.setErrorEff err, .setAllTasksEff cache])
      else
        match data with
        | some d =>
          -- lines 224-281: data branch
          match w with
          | .unavailable => (st0, [])  -- lines 275-281: console.warn only
          | .available reply =>
            match reply with
            | .error _ => (st0, [.workerPost d])  -- lines 267-274: log only
            | .ok sig =>
              if sig ≠ st0.currentTasksSignature then
                -- lines 254-261: adopt fetched set, clear and rewrite cache
                ({ st0 with allTasks := d },
                  [.workerPost d, .setAllTasksEff d, .dbClearEff, .dbBulkPutEff d])
              else
                -- lines 262-266: signatures equal, no update
                (st0, [.workerPost d])
        | none =>
          -- lines 282-292: KV empty branch
          if st0.currentTasksSignature ≠ emptyArraySignature then
            ({ st0 with allTasks := [] }, [.setAllTasksEff [], .dbClearEff])
          else
            (st0, [])
  ({ body.1 with isLoadingAllTasks := false },
    head ++ body.2 ++ [.setLoadingEff false])

/-- Number of remote fetches in an effect trace. -/
def countFetches (effs : List SyncEffect) : Nat :=
  effs.countP (fun e => match e with | .fetchCall => true | _ => false)

/-- Number of worker signature requests in an effect trace. -/
def countWorkerPosts (effs : List SyncEffect) : Nat :=
  effs.countP (fun e => match e with | .workerPost _ => true | _ => false)

/-- Whether a trace replaces the working task set. -/
def callsSetAllTasks (effs : List SyncEffect) : Bool :=
  effs.any (fun e => match e with | .setAllTasksEff _ => true | _ => false)

/-- Whether a trace writes to the local cache (clear or bulkPut). -/
def callsCacheWrite (effs : List SyncEffect) : Bool :=
  effs.any (fun e => match e with
    | .dbClearEff => true
    | .dbBulkPutEff _ => true
    | _ => false)

/-- One outstanding fetched-signature request: the task collection the
cycle posted to the worker (task-store.tsx, line 248). -/
structure SigRequest where
  reqTag : Nat
  tasks : List WorkerTask
deriving DecidableEq, Repr

/-- Delivery model of the temporary listeners (task-store.tsx, lines
233-250): every overlapping cycle registers its own `message` listener on
the one shared worker; a message event is dispatched to every listener
registered at that moment, and each temporary listener resolves its
promise with the first event it sees and removes itself.  So with several
requests outstanding, all of them resolve with whichever response arrives
first, regardless of which request produced it. -/
def tempListenerOutcomes (pending : List SigRequest) (messages : List (List Char)) :
    List (SigRequest × Option (List Char)) :=
  match messages with
  | [] => pending.map (fun r => (r, none))
  | m :: _ => pending.map (fun r => (r, some m))

/-- A JavaScript number as produced by `Date.getTime()`: an integer count
of milliseconds, or `NaN` for an invalid date. -/
inductive JsNum
  | nan
  | int (n : Int)
deriving DecidableEq, Repr

/-- A `createdAt`/`updatedAt` slot of a task record fetched from the
server: after the JSON round-trip through Redis the field holds a string,
or may be absent on incomplete legacy records. -/
inductive TimeField
  | absent
  | strVal (s : List Char)
deriving DecidableEq, Repr

/-- JavaScript truthiness of such a slot: absent and the empty string are
falsy. -/
def timeTruthy : TimeField → Bool
  | .absent => false
  | .strVal s => !s.isEmpty

/-- `new Date(v).getTime()` for a string-valued slot, with the platform's
date parser passed in explicitly: a parseable string yields its epoch
milliseconds, an unparseable one yields `NaN`. -/
def jsGetTime (dateParse : List Char → Option Int) : TimeField → JsNum
  | .absent => .nan
  | .strVal s =>
    match dateParse s with
    | some n => .int n
    | none => .nan

/-- A task record as the deep-equal provider receives it from
`getAllTasksFromKV` (timestamps possibly absent or unparseable). -/
structure RawTask where
  id : List Char
  code : List Char
  title : List Char
  estimatedHours : Int
  status : TaskStatus
  label : TaskLabel
  priority : TaskPriority
  archived : Bool
  createdAt : TimeField
  updatedAt : TimeField
deriving DecidableEq, Repr

/-- The record shape after normalization: timestamps replaced by numbers. -/
structure NormalizedTask where
  id : List Char
  code : List Char
  title : List Char
  estimatedHours : Int
  status : TaskStatus
  label : TaskLabel
  priority : TaskPriority
  archived : Bool
  createdAt : JsNum
  updatedAt : JsNum
deriving DecidableEq, Repr

/-- The `map` body of `normalizeTasksForComparison` (task-store.tsx, lines
690-699): spread the task and replace each timestamp by
`task.t ? new Date(task.t).getTime() : 0`. -/
def normalizeTask (dateParse : List Char → Option Int) (t : RawTask) : NormalizedTask :=
  { id := t.id
    code := t.code
    title := t.title
    estimatedHours := t.estimatedHours
    status := t.status
    label := t.label
    priority := t.priority
    archived := t.archived
    createdAt := if timeTruthy t.createdAt then jsGetTime dateParse t.createdAt else .int 0
    updatedAt := if timeTruthy t.updatedAt then jsGetTime dateParse t.updatedAt else .int 0 }

/-- Lexicographic comparison of ids, modelling the default-locale
`a.id.localeCompare(b.id)` comparator (task-store.tsx, line 700). -/
def idLe (a b : NormalizedTask) : Bool :=
  decide (a.id ≤ b.id)

/-- Stable insertion used to model `Array.prototype.sort` (stable per
ES2019). -/
def insertByLe (le : α → α → Bool) (a : α) : List α → List α
  | [] => [a]
  | b :: bs => if le a b then a :: b :: bs else b :: insertByLe le a bs

/-- Stable comparison sort used to model `Array.prototype.sort`. -/
def sortByLe (le : α → α → Bool) : List α → List α
  | [] => []
  | a :: as => insertByLe le a (sortByLe le as)

/-- `normalizeTasksForComparison` (task-store.tsx, lines 686-701): map
every record through `normalizeTask`, then sort by id.  The non-array
guard of line 688 is vacuous here because the input is already a list. -/
def normalizeTasksForComparison (dateParse : List Char → Option Int)
    (tasks : List RawTask) : List NormalizedTask :=
  sortByLe idLe (tasks.map (normalizeTask dateParse))

/-- The stored `Task` record as `actions.ts` manipulates it (interface in
`db/indexeddb.ts`); `Date` values are represented by their epoch
milliseconds so that "newer" is the integer order. -/
structure StoredTask where
  id : List Char
  code : List Char
  title : List Char
  estimatedHours : Int
  status : TaskStatus
  label : TaskLabel
  priority : TaskPriority
  archived : Bool
  createdAt : Int
  updatedAt : Int
deriving DecidableEq, Repr

/-- The parsed `UpdateTaskSchema & \x7b id \x7d` input of `updateTask`
(actions.ts / validations.ts): every updatable field optional. -/
structure UpdateInput where
  id : List Char
  title : Option (List Char)
  label : Option TaskLabel
  status : Option TaskStatus
  priority : Option TaskPriority
  estimatedHours : Option Int
deriving DecidableEq, Repr

/-- The update loop of `updateTask` (actions.ts, lines 141-157): for each
updatable key in order, if the input provides a value different from the
existing one, write it and record that a change happened.  Returns the
patched task and the `hasActualChanges` flag. -/
def applyUpdates (existing : StoredTask) (u : UpdateInput) : StoredTask × Bool :=
  let s1 :=
    match u.title with
    | some v => if v ≠ existing.title then ({ existing with title := v }, true)
                else (existing, false)
    | none => (existing, false)
  let s2 :=
    match u.label with
    | some v => if v ≠ existing.label then ({ s1.1 with label := v }, true)
                else (s1.1, s1.2)
    | none => (s1.1, s1.2)
  let s3 :=
    match u.status with
    | some v => if v ≠ existing.status then ({ s2.1 with status := v }, true)
                else (s2.1, s2.2)
    | none => (s2.1, s2.2)
  let s4 :=
    match u.priority with
    | some v => if v ≠ existing.priority then ({ s3.1 with priority := v }, true)
                else (s3.1, s3.2)
    | none => (s3.1, s3.2)
  match u.estimatedHours with
  | some v => if v ≠ existing.estimatedHours then ({ s4.1 with estimatedHours := v }, true)
              else (s4.1, s4.2)
  | none => (s4.1, s4.2)

/-- Whether the request changes at least one updatable field relative to
the stored record (the value `hasActualChanges` ends up with). -/
def requestChanges (existing : StoredTask) (u : UpdateInput) : Bool :=
  (match u.title with | some v => v ≠ existing.title | none => false)
  || (match u.label with | some v => v ≠ existing.label | none => false)
  || (match u.status with | some v => v ≠ existing.status | none => false)
  || (match u.priority with | some v => v ≠ existing.priority | none => false)
  || (match u.estimatedHours with | some v => v ≠ existing.estimatedHours | none => false)

/-- `updateTask` on a found id (actions.ts, lines 123-175), with the
operation's clock reading `now` passed in for `new Date()`: if any field
actually changed, stamp `updatedAt := now` and write the patched record
back; otherwise return the existing record with no write.  Result:
(record the store holds afterwards and the call returns, whether a write
was issued). -/
def updateTask (existing : StoredTask) (u : UpdateInput) (now : Int) :
    StoredTask × Bool :=
  let r := applyUpdates existing u
  if r.2 then ({ r.1 with updatedAt := now }, true)
  else (existing, false)

/-- The faceted status counts record returned by `getTaskStatusCounts`. -/
structure StatusCounts where
  todo : Nat
  inProgress : Nat
  done : Nat
  canceled : Nat
deriving DecidableEq, Repr

/-- Increment the count for one status key. -/
def bumpStatus (c : StatusCounts) : TaskStatus → StatusCounts
  | .todo => { c with todo := c.todo + 1 }
  | .inProgress => { c with inProgress := c.inProgress + 1 }
  | .done => { c with done := c.done + 1 }
  | .canceled => { c with canceled := c.canceled + 1 }

/-- Full-scan `getTaskStatusCounts` (queries.ts, lines 22-48): start from
the all-zero record and walk every stored task, incrementing its status
key; the `task.status in counts` guard always holds for the enum. -/
def getTaskStatusCountsScan (tasks : List StoredTask) : StatusCounts :=
  tasks.foldl
    (fun c t =>
      if t.status ∈ [TaskStatus.todo, .inProgress, .done, .canceled]
      then bumpStatus c t.status else c)
    ⟨0, 0, 0, 0⟩

/-- Indexed `getTaskStatusCounts` (queries.ts, lines 374-409): one
`where("status").equals(s).count()` per status. -/
def getTaskStatusCountsIndexed (tasks : List StoredTask) : StatusCounts :=
  { todo := tasks.countP (fun t => t.status = .todo)
    inProgress := tasks.countP (fun t => t.status = .inProgress)
    done := tasks.countP (fun t => t.status = .done)
    canceled := tasks.countP (fun t => t.status = .canceled) }

/-- A sample worker-side task used by concrete witnesses. -/
def sampleW0 : WorkerTask :=
  { id := strL "TASK-0001"
    code := strL "TASK-0001"
    title := strL "first"
    estimatedHours := 2
    status := .todo
    label := .bug
    priority := .low
    archived := false
    createdAt := .jsDate (strL "2024-01-01T00:00:00.000Z")
    updatedAt := .jsDate (strL "2024-01-02T00:00:00.000Z") }

/-- A second sample worker-side task, differing from `sampleW0` in id. -/
def sampleW1 : WorkerTask :=
  { sampleW0 with
    id := strL "TASK-0002"
    code := strL "TASK-0002"
    title := strL "second"
    status := .done }

/-- `sampleW0` with only its title changed: a mutation the signature
projection discards. -/
def sampleW0title : WorkerTask :=
  { sampleW0 with title := strL "renamed" }

/-- A concrete stand-in for the platform date parser: it parses the one
ISO timestamp the samples use and rejects everything else; in particular
`"not-a-date"` is unparseable, as it is for JavaScript's `Date`. -/
def sampleDateParse (s : List Char) : Option Int :=
  if s = strL "2024-01-01T00:00:00.000Z" then some 1704067200000 else none

/-- A fetched record whose `createdAt` is present but unparseable. -/
def sampleRawBad : RawTask :=
  { id := strL "TASK-0009"
    code := strL "TASK-0009"
    title := strL "legacy"
    estimatedHours := 1
    status := .todo
    label := .bug
    priority := .low
    archived := false
    createdAt := .strVal (strL "not-a-date")
    updatedAt := .strVal (strL "2024-01-01T00:00:00.000Z") }

/-- A stored task used by the `updateTask` witnesses. -/
def sampleStored : StoredTask :=
  { id := strL "TASK-0001"
    code := strL "TASK-0001"
    title := strL "first"
    estimatedHours := 2
    status := .todo
    label := .bug
    priority := .low
    archived := false
    createdAt := 1704067200000
    updatedAt := 1704153600000 }

/-- An update request that provides only the title the task already has:
`hasActualChanges` stays false. -/
def sampleNoopUpdate : UpdateInput :=
  { id := strL "TASK-0001"
    title := some (strL "first")
    label := none
    status := none
    priority := none
    estimatedHours := none }

/-- An update request that really changes the status. -/
def sampleRealUpdate : UpdateInput :=
  { id := strL "TASK-0001"
    title := none
    label := none
    status := some .done
    priority := none
    estimatedHours := none }

/-- A provider state holding one task, with the signature invariant
satisfied. -/
def sampleState0 : ProviderState :=
  { allTasks := [sampleW0]
    isLoadingAllTasks := false
    errorLoadingAllTasks := none
    currentTasksSignature := generateSignature [sampleW0] }

/-- A provider state with an empty working set. -/
def sampleStateEmpty : ProviderState :=
  { allTasks := []
    isLoadingAllTasks := false
    errorLoadingAllTasks := none
    currentTasksSignature := [] }

theorem hexVal_hexDigitChar : ∀ n < 16, hexVal (hexDigitChar n) = some n := by
  decide

theorem char_ofNat_div_mod (c : Char) :
    Char.ofNat (((0 * 16 + 0) * 16 + c.toNat / 16) * 16 + c.toNat % 16) = c := by
  have h : ((0 * 16 + 0) * 16 + c.toNat / 16) * 16 + c.toNat % 16 = c.toNat := by
    omega
  rw [h, Char.ofNat_toNat]

theorem psb_quote (t : List Char) : parseStrBody ('\x22' :: t) = some ([], t) := by
  rw [parseStrBody.eq_def]; simp +decide

theorem psb_esc_quote (t : List Char) :
    parseStrBody ('\x5c' :: '\x22' :: t) =
      (parseStrBody t).map (fun p => ('\x22' :: p.1, p.2)) := by
  rw [parseStrBody.eq_def]; simp +decide

theorem psb_esc_backslash (t : List Char) :
    parseStrBody ('\x5c' :: '\x5c' :: t) =
      (parseStrBody t).map (fun p => ('\x5c' :: p.1, p.2)) := by
  rw [parseStrBody.eq_def]; simp +decide

theorem psb_esc_b (t : List Char) :
    parseStrBody ('\x5c' :: 'b' :: t) =
      (parseStrBody t).map (fun p => ('\x08' :: p.1, p.2)) := by
  rw [parseStrBody.eq_def]; simp +decide

theorem psb_esc_t (t : List Char) :
    parseStrBody ('\x5c' :: 't' :: t) =
      (parseStrBody t).map (fun p => ('\x09' :: p.1, p.2)) := by
  rw [parseStrBody.eq_def]; simp +decide

theorem psb_esc_n (t : List Char) :
    parseStrBody ('\x5c' :: 'n' :: t) =
      (parseStrBody t).map (fun p => ('\x0a' :: p.1, p.2)) := by
  rw [parseStrBody.eq_def]; simp +decide

theorem psb_esc_f (t : List Char) :
    parseStrBody ('\x5c' :: 'f' :: t) =
      (parseStrBody t).map (fun p => ('\x0c' :: p.1, p.2)) := by
  rw [parseStrBody.eq_def]; simp +decide

theorem psb_esc_r (t : List Char) :
    parseStrBody ('\x5c' :: 'r' :: t) =
      (parseStrBody t).map (fun p => ('\x0d' :: p.1, p.2)) := by
  rw [parseStrBody.eq_def]; simp +decide

theorem psb_esc_u (d1 d2 d3 d4 : Char) (a b c3 d : Nat) (t : List Char)
    (h1 : hexVal d1 = some a) (h2 : hexVal d2 = some b)
    (h3 : hexVal d3 = some c3) (h4 : hexVal d4 = some d) :
    parseStrBody ('\x5c' :: 'u' :: d1 :: d2 :: d3 :: d4 :: t) =
      (parseStrBody t).map
        (fun p => (Char.ofNat (((a * 16 + b) * 16 + c3) * 16 + d) :: p.1, p.2)) := by
  rw [parseStrBody.eq_def]; simp +decide [h1, h2, h3, h4]

theorem psb_plain (c : Char) (t : List Char) (h1 : c ≠ '\x22') (h2 : c ≠ '\x5c') :
    parseStrBody (c :: t) = (parseStrBody t).map (fun p => (c :: p.1, p.2)) := by
  rw [parseStrBody.eq_def]; simp [h1, h2]

theorem hexVal_zeroChar : hexVal '0' = some 0 := by decide

/-- Parsing undoes escaping: the string body parser consumes exactly the
escaped content up to the closing quote. -/
theorem parseStrBody_escape (s rest : List Char) :
    parseStrBody (escapeChars s ++ '\x22' :: rest) = some (s, rest) := by
  induction s with
  | nil => simpa [escapeChars] using psb_quote rest
  | cons c s ih =>
    simp only [escapeChars, List.append_assoc]
    unfold escChar
    split_ifs with h1 h2 h3 h4 h5 h6 h7 h8
    · subst h1
      simp [psb_esc_quote, ih]
    · subst h2
      simp [psb_esc_backslash, ih]
    · subst h3
      simp [psb_esc_b, ih]
    · subst h4
      simp [psb_esc_t, ih]
    · subst h5
      simp [psb_esc_n, ih]
    · subst h6
      simp [psb_esc_f, ih]
    · subst h7
      simp [psb_esc_r, ih]
    · have hd1 : hexVal (hexDigitChar (c.toNat / 16)) = some (c.toNat / 16) :=
        hexVal_hexDigitChar _ (by omega)
      have hd2 : hexVal (hexDigitChar (c.toNat % 16)) = some (c.toNat % 16) :=
        hexVal_hexDigitChar _ (by omega)
      rw [List.cons_append, List.cons_append, List.cons_append, List.cons_append,
        List.cons_append, List.cons_append, List.nil_append,
        psb_esc_u _ _ _ _ 0 0 (c.toNat / 16) (c.toNat % 16) _
          hexVal_zeroChar hexVal_zeroChar hd1 hd2, ih]
      have hsum : ((0 * 16 + 0) * 16 + c.toNat / 16) * 16 + c.toNat % 16 = c.toNat := by
        omega
      rw [hsum, Char.ofNat_toNat]
      simp
    · simp [psb_plain c _ h1 h2, ih]

/-- Round trip for a full JSON string value. -/
theorem parseJsonStr_quote (s rest : List Char) :
    parseJsonStr (jsonQuote s ++ rest) = some (s, rest) := by
  simp [jsonQuote, parseJsonStr, parseStrBody_escape]

/-- Stripping a literal prefix succeeds on exactly that prefix. -/
theorem parseLit_self (lit rest : List Char) :
    parseLit lit (lit ++ rest) = some rest := by
  induction lit with
  | nil => simp [parseLit]
  | cons c cs ih => simp [parseLit, ih]

theorem statusOfText_statusText (st : TaskStatus) :
    statusOfText (statusText st) = some st := by
  cases st <;> decide

theorem priorityOfText_priorityText (pr : TaskPriority) :
    priorityOfText (priorityText pr) = some pr := by
  cases pr <;> decide

/-- Round trip for one serialized minimal record. -/
theorem parseMinimalTask_encode (m : MinimalTask) (rest : List Char) :
    parseMinimalTask (encodeMinimalTask m ++ rest) = some (m, rest) := by
  simp [encodeMinimalTask, parseMinimalTask, List.append_assoc, parseLit_self,
    parseJsonStr_quote, statusOfText_statusText, priorityOfText_priorityText]

/-- The record serialization is prefix-determined: equal streams starting
with serialized records force equal records and equal tails. -/
theorem encodeMinimalTask_prefix_det {m m2 : MinimalTask} {r r2 : List Char}
    (h : encodeMinimalTask m ++ r = encodeMinimalTask m2 ++ r2) :
    m = m2 ∧ r = r2 := by
  have h1 := parseMinimalTask_encode m r
  rw [h, parseMinimalTask_encode] at h1
  simp at h1
  exact ⟨h1.1.symm, h1.2.symm⟩

/-- Uniform unfolding of `encodeBody` on a cons cell. -/
theorem encodeBody_cons (m : MinimalTask) (ms : List MinimalTask) :
    encodeBody (m :: ms) =
      encodeMinimalTask m ++
        (match ms with
          | [] => [']']
          | _ :: _ => ',' :: encodeBody ms) := by
  rfl

/-- Array bodies of equal element counts are prefix-determined. -/
theorem encodeBody_prefix_det :
    ∀ (ms ms2 : List MinimalTask) (r r2 : List Char),
      ms.length = ms2.length →
      encodeBody ms ++ r = encodeBody ms2 ++ r2 →
      ms = ms2 ∧ r = r2 := by
  intro ms
  induction ms with
  | nil =>
    intro ms2 r r2 hlen h
    cases ms2 with
    | nil =>
      simp [encodeBody] at h
      exact ⟨rfl, h⟩
    | cons _ _ => simp at hlen
  | cons m ms ih =>
    intro ms2 r r2 hlen h
    cases ms2 with
    | nil => simp at hlen
    | cons m2 ms2 =>
      rw [encodeBody_cons, encodeBody_cons, List.append_assoc, List.append_assoc] at h
      obtain ⟨hm, htail⟩ := encodeMinimalTask_prefix_det h
      subst hm
      cases ms with
      | nil =>
        cases ms2 with
        | nil =>
          simp at htail
          exact ⟨rfl, htail⟩
        | cons _ _ => simp at hlen
      | cons a as =>
        cases ms2 with
        | nil => simp at hlen
        | cons a2 as2 =>
          simp only [List.cons_append, List.cons.injEq] at htail
          obtain ⟨-, htail⟩ := htail
          obtain ⟨hms, hr⟩ := ih _ _ _ (by simpa using hlen) htail
          exact ⟨by rw [hms], hr⟩

/-- Serialized chunks of equal element counts are prefix-determined. -/
theorem encodeMinimalList_prefix_det {ms ms2 : List MinimalTask} {r r2 : List Char}
    (hlen : ms.length = ms2.length)
    (h : encodeMinimalList ms ++ r = encodeMinimalList ms2 ++ r2) :
    ms = ms2 ∧ r = r2 := by
  simp only [encodeMinimalList, List.cons_append, List.cons.injEq] at h
  exact encodeBody_prefix_det ms ms2 r r2 hlen h.2

/-- Chunk shape only depends on the length of the input. -/
theorem chunkLoop_length_shape (n : Nat) :
    ∀ (fuel : Nat) (l l2 : List α) , l.length = l2.length →
      (chunkLoop n fuel l).map List.length = (chunkLoop n fuel l2).map List.length := by
  intro fuel
  induction fuel with
  | zero => intro l l2 _; simp [chunkLoop]
  | succ fuel ih =>
    intro l l2 hlen
    cases l with
    | nil =>
      cases l2 with
      | nil => rfl
      | cons _ _ => simp at hlen
    | cons a as =>
      cases l2 with
      | nil => simp at hlen
      | cons b bs =>
        simp only [chunkLoop, List.map_cons, List.cons.injEq]
        refine ⟨by simp [hlen], ih _ _ (by simp [hlen])⟩

/-- Concatenating the chunks recovers the original list. -/
theorem chunkLoop_flatten (n : Nat) (hn : 0 < n) :
    ∀ (fuel : Nat) (l : List α), l.length ≤ fuel →
      (chunkLoop n fuel l).flatten = l := by
  intro fuel
  induction fuel with
  | zero =>
    intro l hl
    rw [Nat.le_zero] at hl
    rw [List.length_eq_zero] at hl
    subst hl
    rfl
  | succ fuel ih =>
    intro l hl
    cases l with
    | nil => rfl
    | cons a as =>
      simp only [chunkLoop, List.flatten_cons]
      rw [ih]
      · exact List.take_append_drop n (a :: as)
      · have hn2 : 1 ≤ n := hn
        simp only [List.length_drop, List.length_cons]
        simp only [List.length_cons] at hl
        omega

/-- Equal-length lists with equal chunked serializations are equal. -/
theorem flatten_encode_det :
    ∀ (css css2 : List (List MinimalTask)),
      css.map List.length = css2.map List.length →
      (css.map encodeMinimalList).flatten = (css2.map encodeMinimalList).flatten →
      css = css2 := by
  intro css
  induction css with
  | nil =>
    intro css2 hshape _
    cases css2 with
    | nil => rfl
    | cons _ _ => simp at hshape
  | cons c css ih =>
    intro css2 hshape h
    cases css2 with
    | nil => simp at hshape
    | cons c2 css2 =>
      simp only [List.map_cons, List.flatten_cons] at h
      simp only [List.map_cons, List.cons.injEq] at hshape
      obtain ⟨hc, hr⟩ := encodeMinimalList_prefix_det hshape.1 h
      subst hc
      rw [ih css2 hshape.2 hr]

/-- `signatureOfMinimal` is injective on lists of equal length. -/
theorem signatureOfMinimal_inj {ms ms2 : List MinimalTask}
    (hlen : ms.length = ms2.length)
    (h : signatureOfMinimal ms = signatureOfMinimal ms2) : ms = ms2 := by
  unfold signatureOfMinimal chunksOf at h
  rw [hlen] at h
  have hshape := chunkLoop_length_shape CHUNK_SIZE ms2.length ms ms2 hlen
  have hchunks := flatten_encode_det _ _ hshape h
  have h1 : (chunkLoop CHUNK_SIZE ms.length ms).flatten = ms :=
    chunkLoop_flatten CHUNK_SIZE (by decide) _ _ le_rfl
  have h2 : (chunkLoop CHUNK_SIZE ms2.length ms2).flatten = ms2 :=
    chunkLoop_flatten CHUNK_SIZE (by decide) _ _ le_rfl
  rw [← h1, ← h2, hlen, hchunks]

/-- Chunking commutes with mapping. -/
theorem chunkLoop_map (n : Nat) (f : α → β) :
    ∀ (fuel : Nat) (l : List α),
      chunkLoop n fuel (l.map f) = (chunkLoop n fuel l).map (List.map f) := by
  intro fuel
  induction fuel with
  | zero => intro l; simp [chunkLoop]
  | succ fuel ih =>
    intro l
    cases l with
    | nil => rfl
    | cons a as =>
      have e1 : List.map f (a :: as) = f a :: List.map f as := rfl
      rw [e1]
      simp only [chunkLoop]
      rw [← e1, ← List.map_take, ← List.map_drop, ih]
      rfl

/-- `generateSignature` is the chunked serialization of the projected
records. -/
theorem generateSignature_eq_minimal (ts : List WorkerTask) :
    generateSignature ts = signatureOfMinimal (ts.map minimalOf) := by
  unfold generateSignature signatureOfMinimal chunksOf
  rw [List.length_map, chunkLoop_map, List.map_map]
  rfl

/-- Setting an entry back to itself changes nothing. -/
theorem list_set_getElem_self (l : List α) :
    ∀ (i : Nat) (h : i < l.length), l.set i l[i] = l := by
  induction l with
  | nil => intro i h; simp at h
  | cons a as ih =>
    intro i h
    cases i with
    | zero => rfl
    | succ j =>
      simp only [List.getElem_cons_succ, List.set_cons_succ, List.cons.injEq, true_and]
      exact ih j (by simpa using h)

/-- Signatures of equal-length collections agree exactly when the
projected records agree. -/
theorem generateSignature_eq_iff {T T2 : List WorkerTask}
    (hlen : T.length = T2.length) :
    generateSignature T = generateSignature T2 ↔
      T.map minimalOf = T2.map minimalOf := by
  rw [generateSignature_eq_minimal, generateSignature_eq_minimal]
  constructor
  · intro h
    exact signatureOfMinimal_inj (by simpa using hlen) h
  · intro h
    rw [h]

/-- C1: the claim says `generateSignature` is order-independent; the code
is not.  At the concrete pair `sampleW0`, `sampleW1` the two orderings of
the same two-task collection produce different signatures, because the
worker serializes the tasks in fetch order without sorting. -/
theorem generateSignature_order_dependent_c1 :
    generateSignature [sampleW0, sampleW1] ≠ generateSignature [sampleW1, sampleW0] := by
  decide

/-- C3 counterexample: mutating a single field (`title`) of the one task
in a collection produces a different task but the same signature, because
`generateSignature` projects each task to `id`, `status`, `priority`,
`updatedAt` before serializing. -/
theorem generateSignature_title_insensitive_c3 :
    sampleW0title ≠ sampleW0 ∧
      generateSignature [sampleW0title] = generateSignature [sampleW0] := by
  decide

/-- C3 (amended): replacing the task at position `i` changes the signature
exactly when the replacement changes the projected record (id, status,
priority, or the serialized updated-at content); mutations of code, title,
label, estimated-hours, archived or created-at never change it, and
mutations of the projected fields always do. -/
theorem generateSignature_set_sensitivity (T : List WorkerTask) (i : Nat)
    (u : WorkerTask) (hi : i < T.length) :
    generateSignature (T.set i u) = generateSignature T ↔
      minimalOf u = minimalOf T[i] := by
  have hlen : (T.set i u).length = T.length := List.length_set T i u
  rw [generateSignature_eq_iff hlen, List.map_set]
  have hb : i < (List.map minimalOf T).length := by simpa using hi
  constructor
  · intro h
    have h2 : ((List.map minimalOf T).set i (minimalOf u))[i]? =
        (List.map minimalOf T)[i]? := by rw [h]
    rw [List.getElem?_set_self (by simpa using hi), List.getElem?_eq_getElem hb,
      List.getElem_map] at h2
    exact Option.some.inj h2
  · intro h
    have e2 : minimalOf T[i] = (List.map minimalOf T)[i] := (List.getElem_map minimalOf).symm
    rw [h, e2]
    exact list_set_getElem_self _ i hb

/-- Concrete instantiation of `generateSignature_set_sensitivity`. -/
theorem generateSignature_set_sensitivity_witness :
    0 < [sampleW0].length ∧
      (generateSignature ([sampleW0].set 0 sampleW1) = generateSignature [sampleW0] ↔
        minimalOf sampleW1 = minimalOf [sampleW0][0]) :=
  ⟨by decide, generateSignature_set_sensitivity [sampleW0] 0 sampleW1 (by decide)⟩

/-- C2: when the fetch succeeds and the worker's signature for the fetched
collection equals the signature of the current working set (which the
provider keeps in `currentTasksSignature`), the cycle neither replaces the
working task set nor touches the local cache: no `setAllTasks`, no
`db.tasks.clear`, no `db.tasks.bulkPut` (task-store.tsx, lines 253-266,
and identically 498-512). -/
theorem fetchAllTasks_noop_c2 (st : ProviderState) (cache d : List WorkerTask)
    (hInv : st.currentTasksSignature = generateSignature st.allTasks)
    (hEq : generateSignature d = generateSignature st.allTasks) :
    (fetchAllTasksFromServer st cache (.resolved (some d) none)
        (.available (.ok (generateSignature d)))).1.allTasks = st.allTasks ∧
    callsSetAllTasks (fetchAllTasksFromServer st cache (.resolved (some d) none)
        (.available (.ok (generateSignature d)))).2 = false ∧
    callsCacheWrite (fetchAllTasksFromServer st cache (.resolved (some d) none)
        (.available (.ok (generateSignature d)))).2 = false := by
  have hguard : generateSignature d = st.currentTasksSignature := by rw [hInv, hEq]
  simp [fetchAllTasksFromServer, errTruthy, hguard, callsSetAllTasks, callsCacheWrite]

/-- Concrete instantiation of `fetchAllTasks_noop_c2`: re-fetching the
very collection the provider already holds is a no-op. -/
theorem fetchAllTasks_noop_c2_witness :
    sampleState0.currentTasksSignature = generateSignature sampleState0.allTasks ∧
    generateSignature [sampleW0] = generateSignature sampleState0.allTasks ∧
    ((fetchAllTasksFromServer sampleState0 [] (.resolved (some [sampleW0]) none)
        (.available (.ok (generateSignature [sampleW0])))).1.allTasks =
          sampleState0.allTasks ∧
      callsSetAllTasks (fetchAllTasksFromServer sampleState0 []
        (.resolved (some [sampleW0]) none)
        (.available (.ok (generateSignature [sampleW0])))).2 = false ∧
      callsCacheWrite (fetchAllTasksFromServer sampleState0 []
        (.resolved (some [sampleW0]) none)
        (.available (.ok (generateSignature [sampleW0])))).2 = false) :=
  ⟨rfl, rfl, fetchAllTasks_noop_c2 sampleState0 [] [sampleW0] rfl rfl⟩

/-- C4: the claim says two overlapping `fetchAllTasksFromServer` calls
coalesce into a single remote fetch and a single worker request pair.  The
function consults no in-flight guard, so each invocation unconditionally
issues its own `getAllTasksFromKV` call and its own `postMessage`: the
combined trace of two back-to-back invocations holds two fetches and two
worker posts, not one of each. -/
theorem fetchAllTasks_no_coalescing_c4 :
    countFetches
        ((fetchAllTasksFromServer sampleState0 [] (.resolved (some [sampleW1]) none)
            (.available (.ok (generateSignature [sampleW1])))).2 ++
          (fetchAllTasksFromServer sampleState0 [] (.resolved (some [sampleW1]) none)
            (.available (.ok (generateSignature [sampleW1])))).2) = 2 ∧
    countWorkerPosts
        ((fetchAllTasksFromServer sampleState0 [] (.resolved (some [sampleW1]) none)
            (.available (.ok (generateSignature [sampleW1])))).2 ++
          (fetchAllTasksFromServer sampleState0 [] (.resolved (some [sampleW1]) none)
            (.available (.ok (generateSignature [sampleW1])))).2) = 2 := by
  decide

/-- C5: the claim says each worker response is delivered to the request
that originated it.  The provider's temporary listeners resolve with the
first message event on the shared worker regardless of correlation: with
requests 0 (for `[]`) and 1 (for `[sampleW0]`) both outstanding and the
worker answering in order, request 1 receives the signature computed from
request 0's collection, which differs from its own. -/
theorem tempListener_crosstalk_c5 :
    tempListenerOutcomes [⟨0, []⟩, ⟨1, [sampleW0]⟩]
        [generateSignature [], generateSignature [sampleW0]] =
      [(⟨0, []⟩, some (generateSignature [])),
        (⟨1, [sampleW0]⟩, some (generateSignature []))] ∧
    generateSignature [] ≠ generateSignature [sampleW0] := by
  decide

/-- C6: the claim says a worker failure makes the cycle adopt the freshly
fetched collection anyway.  In the code the inner `catch` only logs
(task-store.tsx, lines 267-274, and identically 513-520): with an empty
working set, a successful fetch of `[sampleW0]` and a worker error, the
cycle completes (loading cleared) but the working set stays empty and
nothing is written — the fetched set is not adopted. -/
theorem fetchAllTasks_worker_failure_c6 :
    (fetchAllTasksFromServer sampleStateEmpty []
        (.resolved (some [sampleW0]) none)
        (.available (.error (strL "worker failed")))).1.allTasks = [] ∧
    ([] : List WorkerTask) ≠ [sampleW0] ∧
    callsSetAllTasks (fetchAllTasksFromServer sampleStateEmpty []
        (.resolved (some [sampleW0]) none)
        (.available (.error (strL "worker failed")))).2 = false ∧
    callsCacheWrite (fetchAllTasksFromServer sampleStateEmpty []
        (.resolved (some [sampleW0]) none)
        (.available (.error (strL "worker failed")))).2 = false ∧
    (fetchAllTasksFromServer sampleStateEmpty []
        (.resolved (some [sampleW0]) none)
        (.available (.error (strL "worker failed")))).1.isLoadingAllTasks = false := by
  decide

/-- C8: with an empty local cache and a failing remote fetch (a
server-reported error or a rejection), the cycle resolves with an empty
working set, the error recorded, and the loading flag cleared; the
embedding is a total function — every source path is wrapped in
`try/catch/finally` — so no exception reaches the caller. -/
theorem fetchAllTasks_failure_fallback_c8 (st : ProviderState) (e : List Char)
    (res : FetchResult) (w : WorkerCycle) (he : e ≠ [])
    (hres : res = .resolved none (some e) ∨ res = .threw e) :
    (fetchAllTasksFromServer st [] res w).1.allTasks = [] ∧
    (fetchAllTasksFromServer st [] res w).1.errorLoadingAllTasks = some e ∧
    (fetchAllTasksFromServer st [] res w).1.isLoadingAllTasks = false := by
  have he2 : e.isEmpty = false := by
    cases e with
    | nil => exact absurd rfl he
    | cons _ _ => rfl
  rcases hres with h | h <;> subst h <;>
    simp [fetchAllTasksFromServer, errTruthy, he2]

/-- Concrete instantiation of `fetchAllTasks_failure_fallback_c8`. -/
theorem fetchAllTasks_failure_fallback_c8_witness :
    strL "network down" ≠ [] ∧
    ((fetchAllTasksFromServer sampleState0 [] (.threw (strL "network down"))
        (.available (.ok []))).1.allTasks = [] ∧
      (fetchAllTasksFromServer sampleState0 [] (.threw (strL "network down"))
        (.available (.ok []))).1.errorLoadingAllTasks = some (strL "network down") ∧
      (fetchAllTasksFromServer sampleState0 [] (.threw (strL "network down"))
        (.available (.ok []))).1.isLoadingAllTasks = false) :=
  ⟨by decide,
    fetchAllTasks_failure_fallback_c8 sampleState0 (strL "network down")
      (.threw (strL "network down")) (.available (.ok [])) (by decide) (Or.inr rfl)⟩

/-- Inserting permutes to consing. -/
theorem insertByLe_perm (le : α → α → Bool) (a : α) :
    ∀ l : List α, (insertByLe le a l).Perm (a :: l) := by
  intro l
  induction l with
  | nil => simp [insertByLe]
  | cons b bs ih =>
    simp only [insertByLe]
    split_ifs
    · exact List.Perm.refl _
    · exact (ih.cons b).trans (List.Perm.swap a b bs)

/-- The model sort is a permutation of its input. -/
theorem sortByLe_perm (le : α → α → Bool) :
    ∀ l : List α, (sortByLe le l).Perm l := by
  intro l
  induction l with
  | nil => exact List.Perm.refl _
  | cons a as ih =>
    simp only [sortByLe]
    exact (insertByLe_perm le a (sortByLe le as)).trans (ih.cons a)

/-- C7 counterexample: a present but unparseable `createdAt` is normalized
to `NaN`, not to the numeric 0 the claim requires: only missing (falsy)
timestamps are mapped to 0 by `task.createdAt ? ... : 0`. -/
theorem normalize_unparseable_not_zero_c7 :
    (normalizeTasksForComparison sampleDateParse [sampleRawBad]).map
        (fun t => t.createdAt) = [JsNum.nan] ∧
    JsNum.nan ≠ JsNum.int 0 := by
  decide

/-- C7 (amended): `normalizeTasksForComparison` is total and
length-preserving — malformed records never abort the comparison — and for
every input record its normalized image is in the output with: a missing
or empty timestamp normalized to the number 0, and a present but
unparseable one normalized to `NaN`. -/
theorem normalize_tolerates_malformed_c7 (p : List Char → Option Int)
    (tasks : List RawTask) :
    (normalizeTasksForComparison p tasks).length = tasks.length ∧
    ∀ t ∈ tasks,
      normalizeTask p t ∈ normalizeTasksForComparison p tasks ∧
      (timeTruthy t.createdAt = false → (normalizeTask p t).createdAt = JsNum.int 0) ∧
      (∀ s, t.createdAt = TimeField.strVal s → s ≠ [] → p s = none →
        (normalizeTask p t).createdAt = JsNum.nan) ∧
      (timeTruthy t.updatedAt = false → (normalizeTask p t).updatedAt = JsNum.int 0) ∧
      (∀ s, t.updatedAt = TimeField.strVal s → s ≠ [] → p s = none →
        (normalizeTask p t).updatedAt = JsNum.nan) := by
  have hperm := sortByLe_perm idLe (tasks.map (normalizeTask p))
  constructor
  · rw [normalizeTasksForComparison, hperm.length_eq, List.length_map]
  · intro t ht
    refine ⟨?_, ?_, ?_, ?_, ?_⟩
    · rw [normalizeTasksForComparison, hperm.mem_iff]
      exact List.mem_map_of_mem (normalizeTask p) ht
    · intro hf
      simp [normalizeTask, hf]
    · intro s hs hne hp
      have htr : timeTruthy (TimeField.strVal s) = true := by
        simpa [timeTruthy, List.isEmpty_iff] using hne
      simp [normalizeTask, hs, htr, jsGetTime, hp]
    · intro hf
      simp [normalizeTask, hf]
    · intro s hs hne hp
      have htr2 : timeTruthy (TimeField.strVal s) = true := by
        simpa [timeTruthy, List.isEmpty_iff] using hne
      simp [normalizeTask, hs, htr2, jsGetTime, hp]

/-- Concrete instantiation of `normalize_tolerates_malformed_c7` at a
record whose `createdAt` is absent. -/
theorem normalize_tolerates_malformed_c7_witness :
    ({ sampleRawBad with createdAt := TimeField.absent } : RawTask) ∈
        [({ sampleRawBad with createdAt := TimeField.absent } : RawTask)] ∧
    (normalizeTask sampleDateParse
        { sampleRawBad with createdAt := TimeField.absent } ∈
      normalizeTasksForComparison sampleDateParse
        [{ sampleRawBad with createdAt := TimeField.absent }]) ∧
    (normalizeTask sampleDateParse
        { sampleRawBad with createdAt := TimeField.absent }).createdAt = JsNum.int 0 :=
  ⟨List.mem_singleton.mpr rfl,
    ((normalize_tolerates_malformed_c7 sampleDateParse
        [{ sampleRawBad with createdAt := TimeField.absent }]).2 _
      (List.mem_singleton.mpr rfl)).1,
    ((normalize_tolerates_malformed_c7 sampleDateParse
        [{ sampleRawBad with createdAt := TimeField.absent }]).2 _
      (List.mem_singleton.mpr rfl)).2.1 rfl⟩

/-- The update loop's change flag is exactly "some provided field differs
from the stored value". -/
theorem applyUpdates_flag (t : StoredTask) (u : UpdateInput) :
    (applyUpdates t u).2 = requestChanges t u := by
  obtain ⟨i0, t0, l0, s0, p0, e0⟩ := u
  simp only [applyUpdates, requestChanges]
  cases t0 <;> cases l0 <;> cases s0 <;> cases p0 <;> cases e0 <;>
    simp only [] <;> (try split_ifs) <;> simp_all

/-- The update loop never touches `updatedAt` itself. -/
theorem applyUpdates_updatedAt (t : StoredTask) (u : UpdateInput) :
    (applyUpdates t u).1.updatedAt = t.updatedAt := by
  obtain ⟨i0, t0, l0, s0, p0, e0⟩ := u
  simp only [applyUpdates]
  cases t0 <;> cases l0 <;> cases s0 <;> cases p0 <;> cases e0 <;>
    simp only [] <;> (try split_ifs) <;> simp_all

/-- C9 counterexample: an update request whose only provided field equals
the stored value is applied to a found task, yet the stored `updatedAt` is
unchanged afterwards — not strictly newer — because `updateTask` skips the
bump and the write when `hasActualChanges` is false. -/
theorem updateTask_noop_no_bump_c9 :
    (updateTask sampleStored sampleNoopUpdate (sampleStored.updatedAt + 5)).1.updatedAt
        = sampleStored.updatedAt ∧
    ¬ sampleStored.updatedAt <
        (updateTask sampleStored sampleNoopUpdate (sampleStored.updatedAt + 5)).1.updatedAt ∧
    (updateTask sampleStored sampleNoopUpdate (sampleStored.updatedAt + 5)).2 = false := by
  refine ⟨by decide, ?_, by decide⟩
  intro h
  rw [(by decide :
    (updateTask sampleStored sampleNoopUpdate (sampleStored.updatedAt + 5)).1.updatedAt
      = sampleStored.updatedAt)] at h
  exact lt_irrefl _ h

/-- C9 (amended): `updateTask` on a found task stamps `updatedAt` with the
operation time and writes exactly when the request actually changes one of
title, label, status, priority or estimated-hours; when nothing changes it
returns the stored record unchanged — same `updatedAt` — and issues no
write.  Under a strictly advancing clock the bump is strictly newer. -/
theorem updateTask_bump_iff_changed_c9 (t : StoredTask) (u : UpdateInput) (now : Int)
    (hclock : t.updatedAt < now) :
    (updateTask t u now).2 = requestChanges t u ∧
    (requestChanges t u = true →
      (updateTask t u now).1.updatedAt = now ∧
        t.updatedAt < (updateTask t u now).1.updatedAt) ∧
    (requestChanges t u = false →
      (updateTask t u now).1 = t ∧ (updateTask t u now).2 = false) := by
  have hflag := applyUpdates_flag t u
  cases hc : requestChanges t u with
  | true =>
    rw [hc] at hflag
    simp [updateTask, hflag, hclock, hc]
  | false =>
    rw [hc] at hflag
    simp [updateTask, hflag, hc]

/-- Concrete instantiation of `updateTask_bump_iff_changed_c9`: a real
status change bumps `updatedAt` to the (later) operation time. -/
theorem updateTask_bump_iff_changed_c9_witness :
    sampleStored.updatedAt < sampleStored.updatedAt + 5 ∧
    ((updateTask sampleStored sampleRealUpdate (sampleStored.updatedAt + 5)).2 =
        requestChanges sampleStored sampleRealUpdate ∧
      (requestChanges sampleStored sampleRealUpdate = true →
        (updateTask sampleStored sampleRealUpdate (sampleStored.updatedAt + 5)).1.updatedAt =
            sampleStored.updatedAt + 5 ∧
          sampleStored.updatedAt <
            (updateTask sampleStored sampleRealUpdate (sampleStored.updatedAt + 5)).1.updatedAt) ∧
      (requestChanges sampleStored sampleRealUpdate = false →
        (updateTask sampleStored sampleRealUpdate (sampleStored.updatedAt + 5)).1 =
            sampleStored ∧
          (updateTask sampleStored sampleRealUpdate (sampleStored.updatedAt + 5)).2 = false)) :=
  ⟨by decide,
    updateTask_bump_iff_changed_c9 sampleStored sampleRealUpdate
      (sampleStored.updatedAt + 5) (by decide)⟩

/-- The scan fold, started from an arbitrary accumulator, adds the
per-status counts of the list. -/
theorem scan_foldl_counts :
    ∀ (tasks : List StoredTask) (c : StatusCounts),
      tasks.foldl
          (fun c t =>
            if t.status ∈ [TaskStatus.todo, .inProgress, .done, .canceled]
            then bumpStatus c t.status else c) c =
        { todo := c.todo + tasks.countP (fun t => t.status = .todo)
          inProgress := c.inProgress + tasks.countP (fun t => t.status = .inProgress)
          done := c.done + tasks.countP (fun t => t.status = .done)
          canceled := c.canceled + tasks.countP (fun t => t.status = .canceled) } := by
  intro tasks
  induction tasks with
  | nil => intro c; cases c; simp
  | cons t ts ih =>
    intro c
    have hmem : t.status ∈ [TaskStatus.todo, .inProgress, .done, .canceled] := by
      cases t.status <;> simp
    simp only [List.foldl_cons, if_pos hmem, ih]
    cases h : t.status <;>
      simp [bumpStatus, List.countP_cons, h, StatusCounts.mk.injEq] <;> omega

/-- C10: the full-scan and the per-status indexed implementations of
`getTaskStatusCounts` agree on every stored collection, and each count is
the number of stored tasks with that status. -/
theorem status_counts_equiv_c10 (tasks : List StoredTask) :
    getTaskStatusCountsScan tasks = getTaskStatusCountsIndexed tasks ∧
    (getTaskStatusCountsScan tasks).todo = tasks.countP (fun t => t.status = .todo) ∧
    (getTaskStatusCountsScan tasks).inProgress =
      tasks.countP (fun t => t.status = .inProgress) ∧
    (getTaskStatusCountsScan tasks).done = tasks.countP (fun t => t.status = .done) ∧
    (getTaskStatusCountsScan tasks).canceled =
      tasks.countP (fun t => t.status = .canceled) := by
  have h := scan_foldl_counts tasks ⟨0, 0, 0, 0⟩
  unfold getTaskStatusCountsScan getTaskStatusCountsIndexed
  rw [h]
  simp
